import Mathlib

/-!
Verification development for the REG-NMS-inspired matching engine
(Python source under src/src/engine/).  Prices and quantities are exact
decimals in the source (`decimal.Decimal`); they are embedded as `ℚ`.
Timestamps, logging output, fee amounts and the engine metrics counters
are not referenced by any claim and are omitted from the embedding; the
remaining fields and the control flow follow the Python line by line.

The engine is modelled for a single symbol: every claim concerns one
book, and `initialize_symbol` only creates an empty book on first sight.

A central fact about the source: `MatchingEngine._match_order` line 183
reads `len(oppsing_boook)` where `oppsing_boook` is an undefined name
(the rest of the function uses `opposing_book`), so the Python raises
`NameError` whenever the matching loop is entered with positive
remaining quantity; `submit_order` catches the exception and returns a
rejected error document.  Two embeddings of the matching step are given:
`matchOrderFaithful`, which models the code exactly as written (the
undefined name is an error), and `matchOrderIntended`, which models the
same function with the one undefined name read as `opposing_book` — the
only defined candidate, and the reading fixed by the module docstring,
the repository tests (tests/test_matching_engine.py) and spec section 9
note 3.  Theorems say explicitly which of the two they are about.
-/

instance {ε α : Type _} [DecidableEq ε] [DecidableEq α] : DecidableEq (Except ε α) :=
  fun x y =>
    match x, y with
    | Except.ok a, Except.ok b =>
      if h : a = b then isTrue (by rw [h])
      else isFalse (by intro c; injection c; contradiction)
    | Except.ok _, Except.error _ => isFalse (fun c => Except.noConfusion c)
    | Except.error _, Except.ok _ => isFalse (fun c => Except.noConfusion c)
    | Except.error a, Except.error b =>
      if h : a = b then isTrue (by rw [h])
      else isFalse (by intro c; injection c; contradiction)

namespace RegNMS

/-! ### Exact decimal arithmetic

The source computes on `decimal.Decimal` exactly.  The standard `ℚ`
operations of this toolchain are `@[irreducible]`, so the embedding
uses the following definitionally evaluable forms, each proved equal to
the standard operation; theorems may freely use either side. -/

def qadd (a b : ℚ) : ℚ := mkRat (a.num * b.den + b.num * a.den) (a.den * b.den)

def qsub (a b : ℚ) : ℚ := mkRat (a.num * b.den - b.num * a.den) (a.den * b.den)

def qmul (a b : ℚ) : ℚ := mkRat (a.num * b.num) (a.den * b.den)

def qdiv (a b : ℚ) : ℚ := qmul a (Rat.divInt b.den b.num)

theorem qadd_eq (a b : ℚ) : qadd a b = a + b := (Rat.add_def' a b).symm

theorem qsub_eq (a b : ℚ) : qsub a b = a - b := (Rat.sub_def' a b).symm

theorem qmul_eq (a b : ℚ) : qmul a b = a * b := by
  rw [Rat.mul_def, Rat.normalize_eq_mkRat]; rfl

theorem qdiv_eq (a b : ℚ) : qdiv a b = a / b := by
  rw [Rat.div_def, Rat.inv_def, qdiv, qmul_eq]

/-- `sum(...)` over a list of exact decimals. -/
def qsum (l : List ℚ) : ℚ := l.foldr qadd 0

theorem qsum_eq (l : List ℚ) : qsum l = l.sum := by
  induction l with
  | nil => rfl
  | cons x t ih => simp [qsum, List.foldr, qadd_eq, List.sum_cons] at ih ⊢; rw [ih]

/-- The minimum of two rationals, written as the source's
`min(a, b)` computes it; kept as an `if` so that it evaluates by kernel
reduction. -/
def rmin (a b : ℚ) : ℚ := if a ≤ b then a else b

theorem rmin_eq_min (a b : ℚ) : rmin a b = min a b := by
  simp [rmin, min_def]

/-- `OrderSide` from src/src/engine/core/order.py. -/
inductive OrderSide where
  | BUY
  | SELL
deriving DecidableEq, Repr

/-- `OrderType` from src/src/engine/core/order.py. -/
inductive OrderType where
  | MARKET
  | LIMIT
  | IOC
  | FOK
deriving DecidableEq, Repr

/-- `OrderStatus` from src/src/engine/core/order.py. -/
inductive OrderStatus where
  | PENDING
  | OPEN
  | PARTIAL
  | FILLED
  | CANCELLED
  | REJECTED
  | PARTIAL_FILL_CANCELLED
deriving DecidableEq, Repr

/-- The mutable state of an `Order` (src/src/engine/core/order.py).
Timestamps (`timestamp`, `create_time`, `update_time`) are omitted:
no claim mentions them. -/
structure Order where
  order_id : String
  symbol : String
  side : OrderSide
  type : OrderType
  price : Option ℚ
  quantity : ℚ
  remaining_qty : ℚ
  filled_qty : ℚ
  status : OrderStatus
  client_id : Option String
deriving DecidableEq, Repr

instance : Inhabited Order :=
  ⟨{ order_id := "", symbol := "", side := OrderSide.BUY, type := OrderType.LIMIT,
     price := none, quantity := 0, remaining_qty := 0, filled_qty := 0,
     status := OrderStatus.PENDING, client_id := none }⟩

/-- `Order.initialize` (order.py lines 42-62): sets the fields, then
validates in source order (market with price, non-market without price,
non-positive quantity); a failed check raises, which the submit path
turns into a rejected response. -/
def Order.initialize (order_id symbol : String) (side : OrderSide) (order_type : OrderType)
    (quantity : ℚ) (price : Option ℚ) (client_id : Option String) : Except String Order :=
  if order_type = OrderType.MARKET ∧ price ≠ none then
    Except.error "Market orders cannot have a price"
  else if order_type ≠ OrderType.MARKET ∧ price = none then
    Except.error "Limit orders must have a price"
  else if quantity ≤ 0 then
    Except.error "Quantity must be positive"
  else
    Except.ok { order_id := order_id, symbol := symbol, side := side, type := order_type,
                price := price, quantity := quantity, remaining_qty := quantity,
                filled_qty := 0, status := OrderStatus.PENDING, client_id := client_id }

/-- `Order.fill` (order.py lines 87-99): requires `quantity ≤ remaining`,
advances `filled_qty` and `remaining_qty`, sets `FILLED` iff the
remainder is zero, else `PARTIAL`. -/
def Order.fill (o : Order) (quantity _price : ℚ) : Except String Order :=
  if quantity > o.remaining_qty then
    Except.error "Cannot fill more than remaining"
  else
    let o1 := { o with filled_qty := qadd o.filled_qty quantity,
                       remaining_qty := qsub o.remaining_qty quantity }
    Except.ok { o1 with status := if o1.remaining_qty = 0 then OrderStatus.FILLED
                                  else OrderStatus.PARTIAL }

/-- `Order.cancel` (order.py lines 101-107).  The terminal-state guard in
the source lists `FILLED`, `CANCELLED` and `REJECTED` only — it does not
include `PARTIAL_FILL_CANCELLED`. -/
def Order.cancel (o : Order) : Except String Order :=
  if o.status = OrderStatus.FILLED ∨ o.status = OrderStatus.CANCELLED ∨
     o.status = OrderStatus.REJECTED then
    Except.error "Cannot cancel order in terminal state"
  else
    Except.ok { o with status := OrderStatus.CANCELLED }

/-- `Order.reject` (order.py lines 109-112): always sets `REJECTED`. -/
def Order.reject (o : Order) : Order :=
  { o with status := OrderStatus.REJECTED }

/-- The dictionary built by `Order.to_dict` (order.py lines 130-147),
restricted to the fields the claims read.  In the source all quantities
are serialized through `str`; the exact rational values are kept here.
Note `original_quantity` is `str(self.quantity)` and `filled_quantity`
is `str(self.filled_qty)`. -/
structure OrderResponse where
  order_id : String
  status : OrderStatus
  original_quantity : ℚ
  filled_quantity : ℚ
  remaining_quantity : ℚ
  price : Option ℚ
  avg_fill_price : Option ℚ
deriving DecidableEq, Repr

def Order.to_dict (o : Order) : OrderResponse :=
  { order_id := o.order_id, status := o.status, original_quantity := o.quantity,
    filled_quantity := o.filled_qty, remaining_quantity := o.remaining_qty,
    price := o.price, avg_fill_price := none }

/-! ## Order book (src/src/engine/core/order_book.py)

The Python book keeps two `SortedDict`s `price → deque[Order]` (keys
ascending) and a dict `orders : order_id → Order`; a deque and the dict
hold references to the same `Order` objects.  The embedding keeps the
canonical records in the association list `orders` and lets the price
levels store order ids, so a mutation through either access path is a
mutation of the one record, exactly as in Python. -/

/-- A price level's FIFO queue: order ids, head of the deque first. -/
abbrev Level := List String

/-- A side of the book: association list `price → level`, prices strictly
ascending, mirroring `SortedDict` iteration order. -/
abbrev PriceMap := List (ℚ × Level)

/-- Look up the first binding of a key in an association list (Python
dict access; keys are unique in every reachable state). -/
def lookupOrder : List (String × Order) → String → Option Order
  | [], _ => none
  | (k, v) :: t, oid => if k = oid then some v else lookupOrder t oid

/-- Python dict assignment `orders[oid] = o`: replace the binding if the
key is present, otherwise append it. -/
def insertOrder : List (String × Order) → String → Order → List (String × Order)
  | [], oid, o => [(oid, o)]
  | (k, v) :: t, oid, o => if k = oid then (k, o) :: t else (k, v) :: insertOrder t oid o

/-- Mutation of an `Order` object that the dict references: the binding
changes iff the key is present (a record not in the dict is not made
visible through it). -/
def updateOrder : List (String × Order) → String → Order → List (String × Order)
  | [], _, _ => []
  | (k, v) :: t, oid, o => if k = oid then (k, o) :: t else (k, v) :: updateOrder t oid o

/-- Python `del orders[oid]` guarded by a membership test: remove the
first binding of the key if present, else leave the list unchanged. -/
def eraseOrder : List (String × Order) → String → List (String × Order)
  | [], _ => []
  | (k, v) :: t, oid => if k = oid then t else (k, v) :: eraseOrder t oid

/-- Remove the first occurrence of an id from a level queue
(`deque.remove`, which matches the source object by identity). -/
def eraseFirst : List String → String → List String
  | [], _ => []
  | x :: t, oid => if x = oid then t else x :: eraseFirst t oid

/-- Insert an id at the tail of its price level, creating the level in
ascending key position when absent (`SortedDict` insertion plus
`deque.append`, order_book.py lines 33-37). -/
def insertIntoLevels : PriceMap → ℚ → String → PriceMap
  | [], p, oid => [(p, [oid])]
  | (q, lv) :: t, p, oid =>
    if p < q then (p, [oid]) :: (q, lv) :: t
    else if p = q then (q, lv ++ [oid]) :: t
    else (q, lv) :: insertIntoLevels t p oid

/-- Remove the first occurrence of an id from the level at the given
price, deleting the level when its queue becomes empty; no change at
other prices (order_book.py lines 56-65). -/
def removeFromLevels : PriceMap → ℚ → String → PriceMap
  | [], _, _ => []
  | (q, lv) :: t, p, oid =>
    if q = p then
      let lv2 := eraseFirst lv oid
      if lv2 = [] then t else (q, lv2) :: t
    else (q, lv) :: removeFromLevels t p oid

/-- The per-symbol order book (order_book.py).  The BBO dirty-flag cache
is not modelled: `get_bbo` always recomputes, which is observationally
the recomputation the dirty flag triggers. -/
structure OrderBook where
  bids : PriceMap
  asks : PriceMap
  orders : List (String × Order)
deriving DecidableEq, Repr

def emptyBook : OrderBook := { bids := [], asks := [], orders := [] }

/-- `OrderBook.add_order` (order_book.py lines 21-41): fails if the id is
already present, stores the order in the id dict, appends it to its
price level tail and sets status `OPEN` (the dict and the level share
the record, so the stored status is `OPEN`). -/
def OrderBook.add_order (b : OrderBook) (o : Order) : Except String OrderBook :=
  if (lookupOrder b.orders o.order_id).isSome then
    Except.error "Order already exists"
  else
    let o1 := { o with status := OrderStatus.OPEN }
    if o.side = OrderSide.BUY then
      Except.ok { b with orders := insertOrder b.orders o.order_id o1,
                         bids := insertIntoLevels b.bids (o.price.getD 0) o.order_id }
    else
      Except.ok { b with orders := insertOrder b.orders o.order_id o1,
                         asks := insertIntoLevels b.asks (o.price.getD 0) o.order_id }

/-- `OrderBook.remove_order` (order_book.py lines 43-71): `none` when the
id is unknown; otherwise unlink from the level queue (dropping an
emptied level), delete from the id dict, and return the record. -/
def OrderBook.remove_order (b : OrderBook) (oid : String) : Option (Order × OrderBook) :=
  match lookupOrder b.orders oid with
  | none => none
  | some o =>
    let b2 :=
      if o.side = OrderSide.BUY then
        { b with bids := removeFromLevels b.bids (o.price.getD 0) oid,
                 orders := eraseOrder b.orders oid }
      else
        { b with asks := removeFromLevels b.asks (o.price.getD 0) oid,
                 orders := eraseOrder b.orders oid }
    some (o, b2)

/-- `OrderBook.get_best_bid` (order_book.py lines 73-77):
`self.bids.peekitem(-1)`, the highest bid price level. -/
def OrderBook.get_best_bid (b : OrderBook) : Option (ℚ × Level) :=
  if b.bids = [] then none else b.bids.getLast?

/-- `OrderBook.get_best_ask` as written (order_book.py lines 79-83): after
the emptiness check on `asks`, the source returns
`self.bids.peekitem(0)` — the LOWEST BID level, read from the bids map.
When `asks` is non-empty but `bids` is empty, `peekitem(0)` on the empty
map raises `IndexError`. -/
def OrderBook.get_best_ask (b : OrderBook) : Except String (Option (ℚ × Level)) :=
  if b.asks = [] then Except.ok none
  else
    match b.bids.head? with
    | some x => Except.ok (some x)
    | none => Except.error "IndexError"

/-- Aggregate remaining quantity of the orders of one level
(`sum(order.remaining_qty for order in level)`). -/
def availOf (orders : List (String × Order)) (oid : String) : ℚ :=
  match lookupOrder orders oid with
  | some o => o.remaining_qty
  | none => 0

def levelQty (orders : List (String × Order)) (lv : Level) : ℚ :=
  qsum (lv.map (availOf orders))

/-- The BBO document of `_recalculate_bbo` (order_book.py lines 92-113).
`spread_bps` is a binary float in the source and is omitted. -/
structure BBO where
  best_bid : Option ℚ
  best_bid_qty : ℚ
  best_ask : Option ℚ
  best_ask_qty : ℚ
  spread : Option ℚ
deriving DecidableEq, Repr

/-- `OrderBook.get_bbo` / `_recalculate_bbo`: built from `get_best_bid`
and `get_best_ask` (so it inherits the `get_best_ask` behaviour). -/
def OrderBook.get_bbo (b : OrderBook) : Except String BBO :=
  match b.get_best_ask with
  | Except.error e => Except.error e
  | Except.ok ba =>
    let bb := b.get_best_bid
    Except.ok
      { best_bid := bb.map Prod.fst,
        best_bid_qty := match bb with
          | some x => levelQty b.orders x.2
          | none => 0,
        best_ask := ba.map Prod.fst,
        best_ask_qty := match ba with
          | some x => levelQty b.orders x.2
          | none => 0,
        spread := match bb, ba with
          | some x, some y => some (qsub y.1 x.1)
          | _, _ => none }

/-- `OrderBook.get_order` (order_book.py lines 143-145): the id dict. -/
def OrderBook.get_order (b : OrderBook) (oid : String) : Option Order :=
  lookupOrder b.orders oid

/-! ## Matching engine (src/src/engine/core/matching_engine.py) -/

/-- The `order_data` request dictionary of `submit_order`.  The four
required keys are fields of the structure (a request with a missing key
is rejected before any state change and is not modelled); `side` and
`order_type` are the raw strings the source lowercases and parses. -/
structure OrderRequest where
  order_id : Option String
  symbol : String
  order_type : String
  side : String
  quantity : ℚ
  price : Option ℚ
  client_id : Option String
deriving DecidableEq, Repr

/-- A trade record (src/src/engine/models/trade.py), with the trade id as
the engine counter value used to mint it and fees/timestamp omitted
(no claim reads them). -/
structure Trade where
  trade_id : Nat
  symbol : String
  price : ℚ
  quantity : ℚ
  aggressor_side : OrderSide
  maker_order_id : String
  taker_order_id : String
deriving DecidableEq, Repr

/-- A WAL record (src/src/engine/persistence/wal.py): the tagged payload,
UTC timestamp omitted.  `ORDER_SUBMIT` carries the fields
`log_order_submission` serializes, which are exactly an order-request
dictionary that `recover_order_book` feeds back to `submit_order`. -/
inductive WALRecord where
  | ORDER_SUBMIT (data : OrderRequest)
  | TRADE_EXECUTE (trade_id : Nat)
  | ORDER_CANCEL (order_id : String)
deriving DecidableEq, Repr

/-- Engine state for one symbol: the book, the trade-id counter, the
trade history, the WAL file contents, and the broadcast hook
(`websocket_manager`; `broadcasts` counts the `_broadcast_updates`
invocations that reach an attached manager). -/
structure EngineState where
  book : OrderBook
  trade_id_counter : Nat
  trade_history : List Trade
  wal : List WALRecord
  has_websocket : Bool
  broadcasts : Nat
deriving DecidableEq, Repr

def emptyEngine : EngineState :=
  { book := emptyBook, trade_id_counter := 0, trade_history := [], wal := [],
    has_websocket := false, broadcasts := 0 }

def sideStr : OrderSide → String
  | OrderSide.BUY => "buy"
  | OrderSide.SELL => "sell"

def typeStr : OrderType → String
  | OrderType.MARKET => "market"
  | OrderType.LIMIT => "limit"
  | OrderType.IOC => "ioc"
  | OrderType.FOK => "fok"

/-- The record `log_order_submission` appends (wal.py lines 18-33).  The
source writes `str(order.price) if order.price else None`, and
`Decimal(0)` is falsy, so a zero price is logged as `None`. -/
def walRecordOf (o : Order) : WALRecord :=
  WALRecord.ORDER_SUBMIT
    { order_id := some o.order_id, symbol := o.symbol, order_type := typeStr o.type,
      side := sideStr o.side, quantity := o.quantity,
      price := match o.price with
        | some p => if p = 0 then none else some p
        | none => none,
      client_id := o.client_id }

/-- ASCII lowercase of one character. -/
def lowerChar (c : Char) : Char :=
  if 65 ≤ c.toNat ∧ c.toNat ≤ 90 then Char.ofNat (c.toNat + 32) else c

/-- Python `str.lower()` on the request strings (the enum strings the
engine compares against are all ASCII). -/
def pyLower (s : String) : String := String.mk (s.data.map lowerChar)

/-- `_create_order_from_data` (matching_engine.py lines 121-160): parse
side and type from the lowercased strings, then `Order.initialize`.
`freshId` stands for the `ORD-<epoch>-<hex>` id generated when the
request carries none. -/
def createOrderFromData (req : OrderRequest) (freshId : String) : Except String Order :=
  let oid := req.order_id.getD freshId
  let sideL := pyLower req.side
  if sideL = "buy" ∨ sideL = "sell" then
    let side := if sideL = "buy" then OrderSide.BUY else OrderSide.SELL
    let typeL := pyLower req.order_type
    if typeL = "market" ∨ typeL = "limit" ∨ typeL = "ioc" ∨ typeL = "fok" then
      let ty := if typeL = "market" then OrderType.MARKET
                else if typeL = "limit" then OrderType.LIMIT
                else if typeL = "ioc" then OrderType.IOC
                else OrderType.FOK
      Order.initialize oid req.symbol side ty req.quantity req.price req.client_id
    else Except.error "Invalid order type"
  else Except.error "Invalid side"

/-- The price predicate of `_match_order` (matching_engine.py lines
167-172): `order_price ≥ book_price` for a BUY taker, `≤` for a SELL
taker, applied to the incoming order's limit price.  (It is only
evaluated for non-MARKET takers, which carry a price.) -/
def priceCheck (o : Order) (bookPrice : ℚ) : Bool :=
  if o.side = OrderSide.BUY then decide (o.price.getD 0 ≥ bookPrice)
  else decide (o.price.getD 0 ≤ bookPrice)

/-- The inner `for` of `_can_fill_completely` (lines 248-254): walk one
level FIFO, subtracting `min(remaining, resting.remaining_qty)` until
the taker demand is exhausted; returns the remaining demand. -/
def consumeQueue (orders : List (String × Order)) : ℚ → Level → ℚ
  | need, [] => need
  | need, oid :: rest =>
    if need ≤ 0 then need
    else consumeQueue orders (qsub need (rmin need (availOf orders oid))) rest

/-- The `while` of `_can_fill_completely` (lines 239-262) over the
opposing levels in best-price-first order: stop with `False` at the
first level that fails the price check, otherwise consume the level and
pop it while demand remains; report whether the demand reached zero. -/
def canFillLoop (orders : List (String × Order)) (priceOk : ℚ → Bool) :
    ℚ → List (ℚ × Level) → Bool
  | need, [] => decide (need = 0)
  | need, (p, lv) :: rest =>
    if need ≤ 0 then decide (need = 0)
    else if ¬ priceOk p then false
    else
      let need2 := consumeQueue orders need lv
      if need2 > 0 then canFillLoop orders priceOk need2 rest
      else decide (need2 = 0)

/-- `_can_fill_completely` (matching_engine.py lines 231-262): the FOK
dry run.  `opposing_book.copy()` is a shallow copy, so the simulation
reads the live levels and orders without mutating them; the embedding
is a pure function of the state, which is the same observation. -/
def canFillCompletely (s : EngineState) (o : Order) : Bool :=
  if o.type ≠ OrderType.FOK then true
  else
    let levels := if o.side = OrderSide.BUY then s.book.asks else s.book.bids.reverse
    canFillLoop s.book.orders (priceCheck o) o.remaining_qty levels

/-- `_match_order` exactly as written (matching_engine.py lines 162-229).
After the FOK pre-check, line 183 evaluates
`remaining_qty > Decimal(0) and len(oppsing_boook) > 0` where
`oppsing_boook` is an undefined name: with positive remaining quantity
the function raises `NameError` before touching the book; with
non-positive remaining (unreachable, since `initialize` requires a
positive quantity) the loop would be skipped.  `submit_order` catches
the exception and returns a rejected error document. -/
def matchOrderFaithful (s : EngineState) (o : Order) :
    Except String (EngineState × Order × List Trade) :=
  if o.type = OrderType.FOK ∧ canFillCompletely s o = false then
    Except.ok (s, o.reject, [])
  else if o.remaining_qty > 0 then
    Except.error "NameError: name oppsing_boook is not defined"
  else
    Except.ok (s, o, [])

/-- One price level of the intended matching walk (lines 195-219 with
line 183 read as `opposing_book`): FIFO over the queue.  Each step
emits a trade at the level price for `min(remaining, maker.remaining)`,
mutates the maker through `Order.fill`, and pops a fully filled maker
from the queue and deletes it from the id dict; a partially filled maker
stays at the head and the taker demand is exhausted. -/
structure WalkQueueResult where
  orders : List (String × Order)
  queue : Level
  remaining : ℚ
  trades : List Trade
  counter : Nat
deriving DecidableEq, Repr

def walkQueue (taker : Order) (price : ℚ) :
    List (String × Order) → ℚ → Nat → Level → WalkQueueResult
  | orders, remaining, counter, [] =>
    { orders := orders, queue := [], remaining := remaining, trades := [], counter := counter }
  | orders, remaining, counter, m :: rest =>
    if remaining ≤ 0 then
      { orders := orders, queue := m :: rest, remaining := remaining, trades := [],
        counter := counter }
    else
      let maker := (lookupOrder orders m).getD default
      let fill := rmin remaining maker.remaining_qty
      let counter2 := counter + 1
      let trade : Trade :=
        { trade_id := counter2, symbol := maker.symbol, price := price, quantity := fill,
          aggressor_side := taker.side, maker_order_id := m, taker_order_id := taker.order_id }
      let maker2 := match maker.fill fill price with
        | Except.ok x => x
        | Except.error _ => maker
      let orders2 := updateOrder orders m maker2
      let remaining2 := qsub remaining fill
      if maker2.remaining_qty = 0 then
        let r := walkQueue taker price (eraseOrder orders2 m) remaining2 counter2 rest
        { r with trades := trade :: r.trades }
      else
        { orders := orders2, queue := m :: rest, remaining := remaining2,
          trades := [trade], counter := counter2 }

/-- The outer level loop of the intended walk (lines 183-226): levels in
best-price-first order; for a non-MARKET taker stop at the first level
that fails the price check; pop a level once its queue is empty. -/
structure WalkLevelsResult where
  orders : List (String × Order)
  levels : List (ℚ × Level)
  remaining : ℚ
  trades : List Trade
  counter : Nat
deriving DecidableEq, Repr

def walkLevels (taker : Order) :
    List (String × Order) → ℚ → Nat → List (ℚ × Level) → WalkLevelsResult
  | orders, remaining, counter, [] =>
    { orders := orders, levels := [], remaining := remaining, trades := [], counter := counter }
  | orders, remaining, counter, (p, lv) :: rest =>
    if remaining ≤ 0 then
      { orders := orders, levels := (p, lv) :: rest, remaining := remaining, trades := [],
        counter := counter }
    else if taker.type ≠ OrderType.MARKET ∧ ¬ priceCheck taker p then
      { orders := orders, levels := (p, lv) :: rest, remaining := remaining, trades := [],
        counter := counter }
    else
      let r := walkQueue taker p orders remaining counter lv
      if r.queue = [] then
        let r2 := walkLevels taker r.orders r.remaining r.counter rest
        { r2 with trades := r.trades ++ r2.trades }
      else
        { orders := r.orders, levels := (p, r.queue) :: rest, remaining := r.remaining,
          trades := r.trades, counter := r.counter }

/-- `_match_order` with line 183's undefined name read as
`opposing_book` (see the module comment): the intended price-time walk.
For a BUY taker the opposing side is `asks` with the best level first;
for a SELL taker it is `bids`, walked from the highest price.  Each
trade is appended to the trade history and logged to the WAL by
`_generate_trade`; line 228 then writes the walked-down remainder back
to `order.remaining_qty` — and only to `remaining_qty`: the taker's
`filled_qty` is never advanced (the source never calls `fill` on the
incoming order). -/
def matchOrderIntended (s : EngineState) (o : Order) :
    EngineState × Order × List Trade :=
  if o.type = OrderType.FOK ∧ canFillCompletely s o = false then
    (s, o.reject, [])
  else
    let levelsBF := if o.side = OrderSide.BUY then s.book.asks else s.book.bids.reverse
    let r := walkLevels o s.book.orders o.remaining_qty s.trade_id_counter levelsBF
    let book2 : OrderBook :=
      if o.side = OrderSide.BUY then
        { bids := s.book.bids, asks := r.levels, orders := r.orders }
      else
        { bids := r.levels.reverse, asks := s.book.asks, orders := r.orders }
    let s2 : EngineState :=
      { s with book := book2, trade_id_counter := r.counter,
               trade_history := s.trade_history ++ r.trades,
               wal := s.wal ++ r.trades.map (fun t => WALRecord.TRADE_EXECUTE t.trade_id) }
    (s2, { o with remaining_qty := r.remaining }, r.trades)

/-- `_handle_remaining_quantity` (matching_engine.py lines 304-356),
state effects and final order.  A remaining MARKET order with no trades
is rejected, with trades it is `PARTIAL` (and does not rest); a
remaining IOC with trades becomes `PARTIAL_FILL_CANCELLED` (its
`remaining_qty` is NOT zeroed and nothing else is cancelled on the
record), without trades it is rejected; a remaining FOK is rejected;
a remaining LIMIT is placed on the book (`add_order` sets `OPEN`, then
line 333 overwrites the shared record with `PARTIAL` when trades
occurred); zero remainder means `FILLED`.  An `add_order` failure
raises, which `submit_order` turns into an error response. -/
def handleRemaining (s : EngineState) (o : Order) (trades : List Trade) :
    EngineState × Except String Order :=
  if o.remaining_qty > 0 then
    match o.type with
    | OrderType.MARKET =>
      if trades = [] then (s, Except.ok o.reject)
      else (s, Except.ok { o with status := OrderStatus.PARTIAL })
    | OrderType.IOC =>
      if trades ≠ [] then (s, Except.ok { o with status := OrderStatus.PARTIAL_FILL_CANCELLED })
      else (s, Except.ok o.reject)
    | OrderType.FOK => (s, Except.ok o.reject)
    | OrderType.LIMIT =>
      match s.book.add_order o with
      | Except.error e => (s, Except.error e)
      | Except.ok b2 =>
        let o3 := { o with status := if trades ≠ [] then OrderStatus.PARTIAL
                                     else OrderStatus.OPEN }
        (({ s with book := { b2 with orders := updateOrder b2.orders o.order_id o3 } }),
         Except.ok o3)
  else (s, Except.ok { o with status := OrderStatus.FILLED })

/-- The average fill price and response document of
`_handle_remaining_quantity` lines 337-349: `avg = Σ(pᵢqᵢ)/Σqᵢ` when
trades occurred, else absent. -/
def buildResponse (o : Order) (trades : List Trade) : OrderResponse :=
  let total := qsum (trades.map (fun t => t.quantity))
  let pv := qsum (trades.map (fun t => qmul t.price t.quantity))
  { o.to_dict with avg_fill_price := if total > 0 then some (qdiv pv total) else none }

/-- The value `submit_order` returns: the response document on the
normal path, or the `{order_id, status: "rejected", error}` document
built by the `except` handler — whose order id is
`order_data.get("order_id", "UNKNOWN")`, the REQUEST id, not the
generated one. -/
inductive SubmitResult where
  | success (r : OrderResponse)
  | failure (order_id : String) (error : String)
deriving DecidableEq, Repr

/-- `submit_order` (matching_engine.py lines 61-119) over the faithful
matching step: validate and construct the order, append `ORDER_SUBMIT`
to the WAL before any book mutation, run `_match_order` (which, as
written, raises `NameError` unless the FOK pre-check already rejected),
apply the remainder policy, build the response, broadcast.  Metrics
counters are omitted. -/
def submitFaithful (s : EngineState) (req : OrderRequest) (freshId : String) :
    EngineState × SubmitResult :=
  match createOrderFromData req freshId with
  | Except.error e => (s, SubmitResult.failure (req.order_id.getD "UNKNOWN") e)
  | Except.ok o =>
    let s1 := { s with wal := s.wal ++ [walRecordOf o] }
    match matchOrderFaithful s1 o with
    | Except.error e => (s1, SubmitResult.failure (req.order_id.getD "UNKNOWN") e)
    | Except.ok (s2, o2, trades) =>
      match handleRemaining s2 o2 trades with
      | (s3, Except.error e) => (s3, SubmitResult.failure (req.order_id.getD "UNKNOWN") e)
      | (s3, Except.ok o3) =>
        let s4 := { s3 with broadcasts := if s3.has_websocket then s3.broadcasts + 1
                                          else s3.broadcasts }
        (s4, SubmitResult.success (buildResponse o3 trades))

/-- `submit_order` over the intended matching step (line 183's undefined
name read as `opposing_book`); otherwise identical to
`submitFaithful`. -/
def submitIntended (s : EngineState) (req : OrderRequest) (freshId : String) :
    EngineState × SubmitResult :=
  match createOrderFromData req freshId with
  | Except.error e => (s, SubmitResult.failure (req.order_id.getD "UNKNOWN") e)
  | Except.ok o =>
    let s1 := { s with wal := s.wal ++ [walRecordOf o] }
    let (s2, o2, trades) := matchOrderIntended s1 o
    match handleRemaining s2 o2 trades with
    | (s3, Except.error e) => (s3, SubmitResult.failure (req.order_id.getD "UNKNOWN") e)
    | (s3, Except.ok o3) =>
      let s4 := { s3 with broadcasts := if s3.has_websocket then s3.broadcasts + 1
                                        else s3.broadcasts }
      (s4, SubmitResult.success (buildResponse o3 trades))

/-- The value `cancel_order` returns (matching_engine.py lines 425-444):
the cancelled order's `to_dict` with `cancelled_quantity`, or one of the
two raised errors. -/
inductive CancelResult where
  | success (r : OrderResponse) (cancelled_quantity : ℚ)
  | notFound
  | notCancelable (st : OrderStatus)
deriving DecidableEq, Repr

/-- `cancel_order` (matching_engine.py lines 425-444): look the id up in
the book's id dict; when found with status `OPEN` or `PARTIAL`, remove
it from the book, set `CANCELLED` on the record, broadcast, and return
its dict with `cancelled_quantity = remaining_qty`.  Other statuses
raise not-cancelable; an id absent from every id dict raises not-found.
NOTE the source never appends an `ORDER_CANCEL` record to the WAL
(`WriteAheadLog.log_order_cancel` exists but has no caller). -/
def cancelOrder (s : EngineState) (oid : String) : EngineState × CancelResult :=
  match lookupOrder s.book.orders oid with
  | none => (s, CancelResult.notFound)
  | some o =>
    if o.status = OrderStatus.OPEN ∨ o.status = OrderStatus.PARTIAL then
      match s.book.remove_order oid with
      | none => (s, CancelResult.notFound)
      | some (ro, b2) =>
        match ro.cancel with
        | Except.error _ => (s, CancelResult.notCancelable ro.status)
        | Except.ok ro2 =>
          let s2 := { s with
            book := b2,
            broadcasts := if s.has_websocket then s.broadcasts + 1 else s.broadcasts }
          (s2, CancelResult.success ro2.to_dict ro2.remaining_qty)
    else (s, CancelResult.notCancelable o.status)

/-- `get_order` (matching_engine.py lines 463-469): scan the books' id
dicts; the order's dict when found, else `None`. -/
def getOrder (s : EngineState) (oid : String) : Option OrderResponse :=
  (lookupOrder s.book.orders oid).map Order.to_dict

/-- One record of `recover_order_book`'s replay loop (wal.py lines
90-102): an `ORDER_SUBMIT` record is fed back through the NORMAL
`submit_order` (whose WAL appending is not suppressed — matching_engine
line 87 tests only `if self.wal`); `TRADE_EXECUTE` is merely counted;
`ORDER_CANCEL` has no branch and is skipped. -/
def recoverStep (s : EngineState) : WALRecord → EngineState
  | WALRecord.ORDER_SUBMIT data => (submitFaithful s data (data.order_id.getD "RECOVERED")).1
  | WALRecord.TRADE_EXECUTE _ => s
  | WALRecord.ORDER_CANCEL _ => s

/-- `recover_order_book` (wal.py lines 82-105): read the whole log first
(`entries = self.replay()`), then re-apply each record in file order
through `recoverStep`. -/
def recoverOrderBook (s : EngineState) : EngineState :=
  s.wal.foldl recoverStep s

/-! ## Conditional orders (src/src/engine/models/advanced_orders.py) -/

inductive AdvancedOrderType where
  | STOP_LOSS
  | STOP_LIMIT
  | TAKE_PROFIT
deriving DecidableEq, Repr

/-- `AdvancedOrder` (advanced_orders.py lines 11-24); `side` is the raw
request string (the source compares it to the literal "buy"). -/
structure AdvancedOrder where
  order_id : String
  symbol : String
  side : String
  quantity : ℚ
  order_type : AdvancedOrderType
  trigger_price : ℚ
  limit_price : Option ℚ
  client_id : Option String
  activated : Bool
deriving DecidableEq, Repr

/-- `AdvancedOrder.check_trigger` (lines 26-46): `False` once activated;
otherwise the `(side, kind)` table of comparisons against the trigger
price.  (The source also stores the result into `self.activated`; a kept
registry entry's flag therefore stays `False`, so the mutation does not
change later reads and is not threaded here.) -/
def AdvancedOrder.check_trigger (o : AdvancedOrder) (current_price : ℚ) : Bool :=
  if o.activated then false
  else if o.side = "buy" then
    if o.order_type = AdvancedOrderType.STOP_LOSS ∨ o.order_type = AdvancedOrderType.STOP_LIMIT
    then decide (current_price ≤ o.trigger_price)
    else decide (current_price ≥ o.trigger_price)
  else
    if o.order_type = AdvancedOrderType.STOP_LOSS ∨ o.order_type = AdvancedOrderType.STOP_LIMIT
    then decide (current_price ≥ o.trigger_price)
    else decide (current_price ≤ o.trigger_price)

/-- `AdvancedOrder.to_limit_order` (lines 48-57): the promoted request —
`order_type` is "limit" exactly for `STOP_LIMIT`, else "market"; the
price field carries `limit_price` (`Decimal(0)` being falsy, a zero
limit price is serialized as `None`). -/
def AdvancedOrder.to_limit_order (o : AdvancedOrder) : OrderRequest :=
  { order_id := none, symbol := o.symbol,
    order_type := if o.order_type = AdvancedOrderType.STOP_LIMIT then "limit" else "market",
    side := o.side, quantity := o.quantity,
    price := match o.limit_price with
      | some lp => if lp = 0 then none else some lp
      | none => none,
    client_id := o.client_id }

/-- `check_advanced_orders` (matching_engine.py lines 391-409) for one
symbol's registry: partition the entries in order into triggered
(collected as ids, each promoted through `to_limit_order` and handed to
`submit_order` in scan order) and untriggered (kept, in order, as the
new registry).  The returned triple is (triggered ids, new registry,
the promoted submissions in the order they are submitted). -/
def checkAdvancedOrders (registry : List AdvancedOrder) (current_price : ℚ) :
    List String × List AdvancedOrder × List OrderRequest :=
  match registry with
  | [] => ([], [], [])
  | o :: rest =>
    let r := checkAdvancedOrders rest current_price
    if o.check_trigger current_price then
      (o.order_id :: r.1, r.2.1, o.to_limit_order :: r.2.2)
    else
      (r.1, o :: r.2.1, r.2.2)

/-! ## Concrete scenarios

The literal inputs of the spec's end-to-end scenarios (section 8), used
by the theorems below.  `"S1"`, `"B1"` stand for the generated
`ORD-<epoch>-<hex>` ids. -/

/-- SELL LIMIT 1.0 @ 50000. -/
def reqSellLimit1 : OrderRequest :=
  { order_id := none, symbol := "BTC-USDT", order_type := "limit", side := "sell",
    quantity := 1, price := some 50000, client_id := none }

/-- BUY LIMIT 1.0 @ 50000. -/
def reqBuyLimit1 : OrderRequest :=
  { order_id := none, symbol := "BTC-USDT", order_type := "limit", side := "buy",
    quantity := 1, price := some 50000, client_id := none }

/-- BUY LIMIT 2.0 @ 50000. -/
def reqBuyLimit2 : OrderRequest :=
  { order_id := none, symbol := "BTC-USDT", order_type := "limit", side := "buy",
    quantity := 2, price := some 50000, client_id := none }

/-- BUY IOC 2.0 @ 50000. -/
def reqBuyIoc2 : OrderRequest :=
  { order_id := none, symbol := "BTC-USDT", order_type := "ioc", side := "buy",
    quantity := 2, price := some 50000, client_id := none }

/-- BUY FOK 2.0 @ 50000. -/
def reqBuyFok2 : OrderRequest :=
  { order_id := none, symbol := "BTC-USDT", order_type := "fok", side := "buy",
    quantity := 2, price := some 50000, client_id := none }

/-- BUY LIMIT 1.0 @ 49000 (rests below the ask). -/
def reqBuyLimit49 : OrderRequest :=
  { order_id := none, symbol := "BTC-USDT", order_type := "limit", side := "buy",
    quantity := 1, price := some 49000, client_id := none }

/-- The engine after SELL LIMIT 1.0 @ 50000 rested (intended matching
step; the walk is empty for the first order, so only `add_order` acts). -/
def sAfterSell : EngineState := (submitIntended emptyEngine reqSellLimit1 "S1").1

/-- The engine after SELL LIMIT 1.0 @ 50000 and BUY LIMIT 1.0 @ 49000
both rested: a two-sided, uncrossed book (bid 49000 / ask 50000). -/
def sTwoSided : EngineState := (submitIntended sAfterSell reqBuyLimit49 "B1").1

/-! ## Theorems -/

/-- The state after the first faithful submission of the C1 scenario. -/
def sFaithful1 : EngineState := (submitFaithful emptyEngine reqSellLimit1 "S1").1

/-- C1: the claim says the matching walk consumes resting makers and that
the scenario SELL LIMIT 1.0 @ 50000 then BUY LIMIT 1.0 @ 50000 leaves
both orders FILLED with one trade.  The code as written cannot do this:
`_match_order` line 183 evaluates the undefined name `oppsing_boook`,
so every submission that reaches the walk raises `NameError` and is
answered with a rejected error document; in the scenario both orders
are rejected, no trade is emitted, and the book stays empty. -/
theorem C1_matching_walk_raises_NameError :
    (submitFaithful emptyEngine reqSellLimit1 "S1").2
      = SubmitResult.failure "UNKNOWN" "NameError: name oppsing_boook is not defined" ∧
    (submitFaithful sFaithful1 reqBuyLimit1 "B1").2
      = SubmitResult.failure "UNKNOWN" "NameError: name oppsing_boook is not defined" ∧
    (submitFaithful sFaithful1 reqBuyLimit1 "B1").1.trade_history = [] ∧
    (submitFaithful sFaithful1 reqBuyLimit1 "B1").1.book = emptyBook := by
  decide

/-- The response the intended code gives the BUY LIMIT 2.0 taker of the
C2 scenario. -/
def respC2 : OrderResponse :=
  { order_id := "B1", status := OrderStatus.PARTIAL, original_quantity := 2,
    filled_quantity := 0, remaining_quantity := 1, price := some 50000,
    avg_fill_price := some 50000 }

/-- The taker as it rests on the book after the C2 scenario. -/
def restingC2 : Order :=
  { order_id := "B1", symbol := "BTC-USDT", side := OrderSide.BUY, type := OrderType.LIMIT,
    price := some 50000, quantity := 2, remaining_qty := 1, filled_qty := 0,
    status := OrderStatus.PARTIAL, client_id := none }

/-- C2: the claim says `original = filled + remaining` at every
observation, for takers as well as makers, including in the submit
response.  The code violates it for every taker that trades:
`_match_order` line 228 writes the walked-down remainder back to
`remaining_qty` only and never advances the taker's `filled_qty` (the
source never calls `fill` on the incoming order).  Concretely (walk
taken with line 183's undefined name read as `opposing_book`): resting
SELL 1.0 @ 50000, then BUY LIMIT 2.0 @ 50000 — the taker trades 1.0 yet
ends with `original = 2`, `filled = 0`, `remaining = 1`, both in the
response document and on the resting record, and `2 ≠ 0 + 1`. -/
theorem C2_taker_conservation_violated :
    (submitIntended sAfterSell reqBuyLimit2 "B1").2 = SubmitResult.success respC2 ∧
    lookupOrder (submitIntended sAfterSell reqBuyLimit2 "B1").1.book.orders "B1"
      = some restingC2 ∧
    respC2.original_quantity ≠ respC2.filled_quantity + respC2.remaining_quantity ∧
    restingC2.quantity ≠ restingC2.filled_qty + restingC2.remaining_qty := by
  refine ⟨by decide, by decide, by norm_num [respC2], by norm_num [restingC2]⟩

/-- C3: the claim says `get_best_ask` returns the lowest-priced level of
the ASKS map (or absent when that side is empty) and that the BBO
reports that ask price with its aggregate size.  The source
(order_book.py line 83) returns `self.bids.peekitem(0)` — the lowest
BID level: on the two-sided book bid 49000 / ask 50000 it reports
(49000, the bid queue) instead of (50000, the ask queue), the derived
BBO shows `best_ask = 49000` with the bid queue's size, and on a book
with asks but no bids it raises `IndexError` instead of returning the
best ask. -/
theorem C3_get_best_ask_reads_bids :
    sTwoSided.book.asks = [(50000, ["S1"])] ∧
    sTwoSided.book.bids = [(49000, ["B1"])] ∧
    sTwoSided.book.get_best_ask = Except.ok (some (49000, ["B1"])) ∧
    sTwoSided.book.get_bbo = Except.ok
      { best_bid := some 49000, best_bid_qty := 1, best_ask := some 49000,
        best_ask_qty := 1, spread := some 0 } ∧
    sAfterSell.book.bids = [] ∧
    sAfterSell.book.asks = [(50000, ["S1"])] ∧
    sAfterSell.book.get_best_ask = Except.error "IndexError" ∧
    (49000 : ℚ) ≠ 50000 := by
  decide

/-- The response the intended code gives the IOC taker of the C5
scenario. -/
def respC5 : OrderResponse :=
  { order_id := "B1", status := OrderStatus.PARTIAL_FILL_CANCELLED, original_quantity := 2,
    filled_quantity := 0, remaining_quantity := 1, price := some 50000,
    avg_fill_price := some 50000 }

/-- The one trade of the C5 scenario. -/
def tradeC5 : Trade :=
  { trade_id := 1, symbol := "BTC-USDT", price := 50000, quantity := 1,
    aggressor_side := OrderSide.BUY, maker_order_id := "S1", taker_order_id := "B1" }

/-- C5: the claim says a partially filled IOC ends
`PARTIAL_FILL_CANCELLED` with the response reporting
`remaining_quantity = 0` (and, in the scenario, `filled = 1.0`).  With
the walk taken as intended (line 183's undefined name read as
`opposing_book`), the scenario — book SELL 1.0 @ 50000, submit IOC BUY
2.0 @ 50000 — does yield one trade of 1.0 at 50000 and status
`PARTIAL_FILL_CANCELLED`, but `_handle_remaining_quantity` (lines
318-323) only sets the status: the response reports
`remaining_quantity = 1` (the remainder is never zeroed or marked
cancelled on the record) and `filled_quantity = 0` (the taker
fill-accounting bug of C2). -/
theorem C5_ioc_partial_response_wrong :
    (submitIntended sAfterSell reqBuyIoc2 "B1").2 = SubmitResult.success respC5 ∧
    (submitIntended sAfterSell reqBuyIoc2 "B1").1.trade_history = [tradeC5] ∧
    respC5.status = OrderStatus.PARTIAL_FILL_CANCELLED ∧
    respC5.remaining_quantity ≠ 0 ∧
    respC5.filled_quantity ≠ 1 := by
  decide

/-- The WAL record replayed in the C6 scenario. -/
def rqC6 : OrderRequest :=
  { order_id := some "ORD-1", symbol := "BTC-USDT", order_type := "limit", side := "buy",
    quantity := 1, price := some 50000, client_id := none }

/-- An engine that starts up with one `ORDER_SUBMIT` record in its log. -/
def sC6 : EngineState := { emptyEngine with wal := [WALRecord.ORDER_SUBMIT rqC6] }

/-- C6: the claim says replay re-applies each `ORDER_SUBMIT` with WAL
writes suppressed, so recovery appends nothing to the log.  The source
has no suppression: `recover_order_book` calls the normal
`submit_order`, and `submit_order` line 87 tests only `if self.wal`
(always set), so every replayed submission is logged again — replaying
a log with one `ORDER_SUBMIT` record leaves the file with two. -/
theorem C6_replay_appends_to_wal :
    (recoverOrderBook sC6).wal
      = [WALRecord.ORDER_SUBMIT rqC6, WALRecord.ORDER_SUBMIT rqC6] ∧
    sC6.wal = [WALRecord.ORDER_SUBMIT rqC6] ∧
    (recoverOrderBook sC6).wal ≠ sC6.wal := by
  decide

/-- The `ORDER_SUBMIT` record of the resting sell of `sAfterSell`. -/
def recS1 : WALRecord :=
  WALRecord.ORDER_SUBMIT
    { order_id := some "S1", symbol := "BTC-USDT", order_type := "limit", side := "sell",
      quantity := 1, price := some 50000, client_id := none }

/-- The cancellation response of the C7 counterexample. -/
def respC7 : OrderResponse :=
  { order_id := "S1", status := OrderStatus.CANCELLED, original_quantity := 1,
    filled_quantity := 0, remaining_quantity := 1, price := some 50000,
    avg_fill_price := none }

/-- C7 counterexample: a successful cancel of an `OPEN` resting order
appends NO `ORDER_CANCEL` record to the WAL — after the cancel the log
still holds exactly the one `ORDER_SUBMIT` record it held before
(`log_order_cancel` exists in wal.py but `cancel_order` never calls
it), refuting the claim's "appends an ORDER_CANCEL record to the
write-ahead log". -/
theorem C7_cancel_writes_no_wal_record :
    (cancelOrder sAfterSell "S1").2 = CancelResult.success respC7 1 ∧
    sAfterSell.wal = [recS1] ∧
    (cancelOrder sAfterSell "S1").1.wal = [recS1] := by
  decide

/-- An order in the terminal state `PARTIAL_FILL_CANCELLED`. -/
def pfcOrder : Order :=
  { order_id := "X1", symbol := "BTC-USDT", side := OrderSide.BUY, type := OrderType.IOC,
    price := some 50000, quantity := 2, remaining_qty := 1, filled_qty := 1,
    status := OrderStatus.PARTIAL_FILL_CANCELLED, client_id := none }

/-- C8 counterexample: `Order.cancel` on an order whose status is the
terminal `PARTIAL_FILL_CANCELLED` SUCCEEDS (the guard at order.py line
103 lists only `FILLED`, `CANCELLED`, `REJECTED`), refuting the claim
that cancel fails from all four terminal states. -/
theorem C8_cancel_succeeds_from_pfc :
    pfcOrder.status = OrderStatus.PARTIAL_FILL_CANCELLED ∧
    Order.cancel pfcOrder = Except.ok { pfcOrder with status := OrderStatus.CANCELLED } := by
  decide

/-- C8 (amended): `Order.cancel` fails exactly from `FILLED`, `CANCELLED`
and `REJECTED` — three of the four terminal states — and succeeds (to
status `CANCELLED`) from every other state, INCLUDING the terminal
`PARTIAL_FILL_CANCELLED`, which the guard omits. -/
theorem C8_cancel_guard_exact (o : Order) :
    (o.cancel.isOk = true ↔
      ¬(o.status = OrderStatus.FILLED ∨ o.status = OrderStatus.CANCELLED ∨
        o.status = OrderStatus.REJECTED)) ∧
    (o.status = OrderStatus.PARTIAL_FILL_CANCELLED →
      o.cancel = Except.ok { o with status := OrderStatus.CANCELLED }) := by
  constructor
  · by_cases h : o.status = OrderStatus.FILLED ∨ o.status = OrderStatus.CANCELLED ∨
      o.status = OrderStatus.REJECTED <;>
      simp [Order.cancel, h, Except.isOk, Except.toBool]
  · intro h
    simp [Order.cancel, h]

/-- C8 witness: the amended theorem applied to the concrete
`PARTIAL_FILL_CANCELLED` order. -/
theorem C8_cancel_guard_exact_witness :
    Order.cancel pfcOrder = Except.ok { pfcOrder with status := OrderStatus.CANCELLED } :=
  (C8_cancel_guard_exact pfcOrder).2 (by decide)

/-! ### Lemmas about the FOK dry run -/

theorem qsum_cons (a : ℚ) (l : List ℚ) : qsum (a :: l) = qadd a (qsum l) := rfl

theorem lookupOrder_mem (l : List (String × Order)) (k : String) (o : Order) :
    lookupOrder l k = some o → (k, o) ∈ l := by
  induction l with
  | nil => intro h; simp [lookupOrder] at h
  | cons e t ih =>
    obtain ⟨a, b⟩ := e
    intro h
    rw [lookupOrder] at h
    by_cases hak : a = k
    · subst hak
      rw [if_pos rfl] at h
      injection h with h2
      subst h2
      exact List.mem_cons_self _ _
    · rw [if_neg hak] at h
      exact List.mem_cons_of_mem _ (ih h)

theorem availOf_nonneg (orders : List (String × Order))
    (hnn : ∀ e ∈ orders, 0 ≤ e.2.remaining_qty) (oid : String) :
    0 ≤ availOf orders oid := by
  cases heq : lookupOrder orders oid with
  | none => simp [availOf, heq]
  | some o => simpa [availOf, heq] using hnn (oid, o) (lookupOrder_mem _ _ _ heq)

theorem levelQty_nonneg (orders : List (String × Order))
    (hnn : ∀ e ∈ orders, 0 ≤ e.2.remaining_qty) (lv : Level) :
    0 ≤ levelQty orders lv := by
  rw [levelQty, qsum_eq]
  apply List.sum_nonneg
  intro x hx
  obtain ⟨oid, _, rfl⟩ := List.mem_map.mp hx
  exact availOf_nonneg orders hnn oid

/-- The inner loop of the FOK dry run subtracts, in total, the level's
aggregate quantity capped at the demand. -/
theorem consumeQueue_eq (orders : List (String × Order))
    (hnn : ∀ e ∈ orders, 0 ≤ e.2.remaining_qty) :
    ∀ (lv : Level) (need : ℚ), 0 ≤ need →
      consumeQueue orders need lv = max 0 (need - levelQty orders lv) := by
  intro lv
  induction lv with
  | nil =>
    intro need h0
    rw [consumeQueue, levelQty]
    simp only [List.map_nil]
    show need = max 0 (need - qsum [])
    show need = max 0 (need - 0)
    rw [sub_zero, max_eq_right h0]
  | cons oid rest ih =>
    intro need h0
    rw [consumeQueue]
    have hlvl : levelQty orders (oid :: rest)
        = availOf orders oid + levelQty orders rest := by
      rw [levelQty, levelQty, List.map_cons, qsum_cons, qadd_eq]
    have ha := availOf_nonneg orders hnn oid
    have hrest := levelQty_nonneg orders hnn rest
    by_cases hle : need ≤ 0
    · have hz : need = 0 := le_antisymm hle h0
      subst hz
      rw [if_pos (le_refl 0), hlvl, eq_comm]
      exact max_eq_left (by linarith)
    · rw [if_neg hle]
      have hstep : 0 ≤ qsub need (rmin need (availOf orders oid)) := by
        rw [qsub_eq, rmin_eq_min]
        rcases le_total need (availOf orders oid) with hc | hc
        · rw [min_eq_left hc]; linarith
        · rw [min_eq_right hc]; linarith
      rw [ih _ hstep, hlvl, qsub_eq, rmin_eq_min]
      rcases le_total need (availOf orders oid) with hc | hc
      · rw [min_eq_left hc,
          max_eq_left (by linarith), max_eq_left (by linarith)]
      · rw [min_eq_right hc]
        congr 1
        ring

/-- The cumulative maker quantity at levels that cross, in
best-price-first order: what the claim calls the "cumulative crossable
maker quantity".  `takeWhile` mirrors the dry run, which stops at the
first non-crossing level (prices worsen monotonically in a sorted
book). -/
def crossQty (orders : List (String × Order)) (priceOk : ℚ → Bool)
    (levels : List (ℚ × Level)) : ℚ :=
  qsum ((levels.takeWhile (fun pl => priceOk pl.1)).map (fun pl => levelQty orders pl.2))

theorem crossQty_nonneg (orders : List (String × Order))
    (hnn : ∀ e ∈ orders, 0 ≤ e.2.remaining_qty) (priceOk : ℚ → Bool)
    (levels : List (ℚ × Level)) : 0 ≤ crossQty orders priceOk levels := by
  rw [crossQty, qsum_eq]
  apply List.sum_nonneg
  intro x hx
  obtain ⟨pl, _, rfl⟩ := List.mem_map.mp hx
  exact levelQty_nonneg orders hnn pl.2

/-- The FOK dry-run loop succeeds exactly when the demand is at most the
cumulative crossable maker quantity. -/
theorem canFillLoop_eq (orders : List (String × Order))
    (hnn : ∀ e ∈ orders, 0 ≤ e.2.remaining_qty) (priceOk : ℚ → Bool) :
    ∀ (levels : List (ℚ × Level)) (need : ℚ), 0 < need →
      canFillLoop orders priceOk need levels
        = decide (need ≤ crossQty orders priceOk levels) := by
  intro levels
  induction levels with
  | nil =>
    intro need hpos
    rw [canFillLoop, crossQty]
    simp only [List.takeWhile_nil, List.map_nil]
    have h1 : ¬(need = 0) := ne_of_gt hpos
    have h2 : ¬(need ≤ qsum []) := by
      show ¬(need ≤ 0)
      exact not_le.mpr hpos
    simp [h1, h2]
  | cons pl rest ih =>
    obtain ⟨p, lv⟩ := pl
    intro need hpos
    rw [canFillLoop, if_neg (not_le.mpr hpos)]
    have hc := consumeQueue_eq orders hnn lv need (le_of_lt hpos)
    by_cases hok : priceOk p = true
    · rw [if_neg (by simp [hok])]
      have hcr : crossQty orders priceOk ((p, lv) :: rest)
          = levelQty orders lv + crossQty orders priceOk rest := by
        rw [crossQty, crossQty, List.takeWhile_cons_of_pos (by simpa using hok),
          List.map_cons, qsum_cons, qadd_eq]
      by_cases h2 : consumeQueue orders need lv > 0
      · have hq : consumeQueue orders need lv = need - levelQty orders lv := by
          rw [hc] at h2 ⊢
          rcases le_total (need - levelQty orders lv) 0 with hx | hx
          · rw [max_eq_left hx] at h2; exact absurd h2 (lt_irrefl 0)
          · exact max_eq_right hx
        rw [if_pos h2, ih _ h2, hq, hcr, decide_eq_decide]
        constructor <;> intro <;> linarith
      · rw [if_neg h2]
        have h0 : 0 ≤ consumeQueue orders need lv := by
          rw [hc]; exact le_max_left _ _
        have hz : consumeQueue orders need lv = 0 := le_antisymm (not_lt.mp h2) h0
        have hQ : need ≤ levelQty orders lv := by
          rw [hc] at hz
          by_contra hcon
          push_neg at hcon
          rw [max_eq_right (by linarith)] at hz
          linarith
        have hS := crossQty_nonneg orders hnn priceOk rest
        rw [hz, hcr, decide_eq_decide]
        constructor
        · intro _; linarith
        · intro _; rfl
    · rw [if_pos (by simpa using hok)]
      have hcr : crossQty orders priceOk ((p, lv) :: rest) = 0 := by
        rw [crossQty, List.takeWhile_cons_of_neg (by simpa using hok)]
        rfl
      rw [hcr]
      have hn : ¬(need ≤ 0) := not_le.mpr hpos
      simp [hn]

/-! ### Lemmas about the id dict -/

theorem lookupOrder_eq_none (l : List (String × Order)) (k : String) :
    lookupOrder l k = none ↔ k ∉ l.map Prod.fst := by
  induction l with
  | nil => simp [lookupOrder]
  | cons e t ih =>
    obtain ⟨a, b⟩ := e
    rw [lookupOrder]
    by_cases hak : a = k
    · subst hak; simp
    · have hka : ¬(k = a) := fun hh => hak hh.symm
      simp [hak, hka, ih]

theorem updateOrder_mem (l : List (String × Order)) (k : String) (v : Order) (e : String × Order)
    (h : e ∈ updateOrder l k v) : e ∈ l ∨ e = (k, v) := by
  induction l with
  | nil => simp [updateOrder] at h
  | cons a t ih =>
    obtain ⟨a1, a2⟩ := a
    rw [updateOrder] at h
    by_cases hak : a1 = k
    · rw [if_pos hak] at h
      rcases List.mem_cons.mp h with h | h
      · subst hak; right; simpa using h
      · exact Or.inl (List.mem_cons_of_mem _ h)
    · rw [if_neg hak] at h
      rcases List.mem_cons.mp h with h | h
      · exact Or.inl (h ▸ List.mem_cons_self _ _)
      · rcases ih h with h | h
        · exact Or.inl (List.mem_cons_of_mem _ h)
        · exact Or.inr h

theorem updateOrder_keys (l : List (String × Order)) (k : String) (v : Order) :
    (updateOrder l k v).map Prod.fst = l.map Prod.fst := by
  induction l with
  | nil => rfl
  | cons a t ih =>
    obtain ⟨a1, a2⟩ := a
    rw [updateOrder]
    by_cases hak : a1 = k
    · rw [if_pos hak]; subst hak; simp
    · rw [if_neg hak]; simp [ih]

theorem eraseOrder_mem (l : List (String × Order)) (k : String) (e : String × Order)
    (h : e ∈ eraseOrder l k) : e ∈ l := by
  induction l with
  | nil => simp [eraseOrder] at h
  | cons a t ih =>
    obtain ⟨a1, a2⟩ := a
    rw [eraseOrder] at h
    by_cases hak : a1 = k
    · rw [if_pos hak] at h
      exact List.mem_cons_of_mem _ h
    · rw [if_neg hak] at h
      rcases List.mem_cons.mp h with h | h
      · exact h ▸ List.mem_cons_self _ _
      · exact List.mem_cons_of_mem _ (ih h)

theorem eraseOrder_keys (l : List (String × Order)) (k : String) (x : String)
    (h : x ∈ (eraseOrder l k).map Prod.fst) : x ∈ l.map Prod.fst := by
  obtain ⟨e, he, rfl⟩ := List.mem_map.mp h
  exact List.mem_map.mpr ⟨e, eraseOrder_mem l k e he, rfl⟩

theorem erase_update_mem (l : List (String × Order)) (k : String) (v : Order)
    (e : String × Order) (h : e ∈ eraseOrder (updateOrder l k v) k) : e ∈ l := by
  induction l with
  | nil => simp [updateOrder, eraseOrder] at h
  | cons a t ih =>
    obtain ⟨a1, a2⟩ := a
    rw [updateOrder] at h
    by_cases hak : a1 = k
    · rw [if_pos hak, eraseOrder, if_pos hak] at h
      exact List.mem_cons_of_mem _ h
    · rw [if_neg hak, eraseOrder, if_neg hak] at h
      rcases List.mem_cons.mp h with h | h
      · exact h ▸ List.mem_cons_self _ _
      · exact List.mem_cons_of_mem _ (ih h)

theorem insertOrder_mem (l : List (String × Order)) (k : String) (v : Order)
    (e : String × Order) (h : e ∈ insertOrder l k v) : e ∈ l ∨ e = (k, v) := by
  induction l with
  | nil => simpa [insertOrder] using h
  | cons a t ih =>
    obtain ⟨a1, a2⟩ := a
    rw [insertOrder] at h
    by_cases hak : a1 = k
    · rw [if_pos hak] at h
      rcases List.mem_cons.mp h with h | h
      · subst hak; right; simpa using h
      · exact Or.inl (List.mem_cons_of_mem _ h)
    · rw [if_neg hak] at h
      rcases List.mem_cons.mp h with h | h
      · exact Or.inl (h ▸ List.mem_cons_self _ _)
      · rcases ih h with h | h
        · exact Or.inl (List.mem_cons_of_mem _ h)
        · exact Or.inr h

theorem insertOrder_keys (l : List (String × Order)) (k : String) (v : Order) (x : String)
    (h : x ∈ (insertOrder l k v).map Prod.fst) : x ∈ l.map Prod.fst ∨ x = k := by
  obtain ⟨e, he, rfl⟩ := List.mem_map.mp h
  rcases insertOrder_mem l k v e he with h2 | h2
  · exact Or.inl (List.mem_map.mpr ⟨e, h2, rfl⟩)
  · subst h2; exact Or.inr rfl

theorem lookup_eraseOrder_self (l : List (String × Order)) (k : String)
    (hnd : (l.map Prod.fst).Nodup) : lookupOrder (eraseOrder l k) k = none := by
  induction l with
  | nil => rfl
  | cons a t ih =>
    obtain ⟨a1, a2⟩ := a
    simp only [List.map_cons, List.nodup_cons] at hnd
    rw [eraseOrder]
    by_cases hak : a1 = k
    · rw [if_pos hak]
      subst hak
      exact (lookupOrder_eq_none t a1).mpr (by simpa using hnd.1)
    · rw [if_neg hak, lookupOrder, if_neg hak]
      exact ih hnd.2

/-! ### Lemmas about the intended matching walk -/

theorem rmin_le_right (a b : ℚ) : rmin a b ≤ b := by
  rw [rmin_eq_min]; exact min_le_right a b

/-- `Order.fill` with `quantity ≤ remaining` (always the case in the
walk, where the fill is the minimum) resolved to its record. -/
theorem Order.fill_ok (o : Order) (q p : ℚ) (h : ¬ q > o.remaining_qty) :
    o.fill q p = Except.ok
      { o with
        filled_qty := qadd o.filled_qty q,
        remaining_qty := qsub o.remaining_qty q,
        status := if qsub o.remaining_qty q = 0 then OrderStatus.FILLED
                  else OrderStatus.PARTIAL } := by
  rw [Order.fill, if_neg h]

/-- The record the walk turns a maker into. -/
def filledMaker (maker : Order) (fill : ℚ) : Order :=
  { maker with
    filled_qty := qadd maker.filled_qty fill,
    remaining_qty := qsub maker.remaining_qty fill,
    status := if qsub maker.remaining_qty fill = 0 then OrderStatus.FILLED
              else OrderStatus.PARTIAL }

/-- The cons equation of `walkQueue` with the maker's `fill` call
resolved (its guard cannot fire: the fill is capped at the maker's
remainder). -/
theorem walkQueue_cons (taker : Order) (price : ℚ) (orders : List (String × Order))
    (rem : ℚ) (c : Nat) (m : String) (rest : Level) (h0 : ¬ rem ≤ 0) :
    walkQueue taker price orders rem c (m :: rest) =
      (let maker := (lookupOrder orders m).getD default
       let fill := rmin rem maker.remaining_qty
       let maker2 := filledMaker maker fill
       let trade : Trade :=
         { trade_id := c + 1, symbol := maker.symbol, price := price,
           quantity := fill, aggressor_side := taker.side, maker_order_id := m,
           taker_order_id := taker.order_id }
       if maker2.remaining_qty = 0 then
         let r := walkQueue taker price (eraseOrder (updateOrder orders m maker2) m)
           (qsub rem fill) (c + 1) rest
         { r with trades := trade :: r.trades }
       else
         { orders := updateOrder orders m maker2, queue := m :: rest,
           remaining := qsub rem fill, trades := [trade], counter := c + 1 }) := by
  have hfe := Order.fill_ok ((lookupOrder orders m).getD default)
    (rmin rem ((lookupOrder orders m).getD default).remaining_qty) price
    (not_lt.mpr (rmin_le_right _ _))
  rw [walkQueue, if_neg h0]
  simp only [hfe, filledMaker]

/-- The maker record the walk keeps at the head has a non-negative
remainder. -/
theorem filledMaker_remaining_nonneg (maker : Order) (rem : ℚ) :
    0 ≤ (filledMaker maker (rmin rem maker.remaining_qty)).remaining_qty := by
  show 0 ≤ qsub maker.remaining_qty (rmin rem maker.remaining_qty)
  rw [qsub_eq]
  have := rmin_le_right rem maker.remaining_qty
  linarith

theorem walkQueue_keys (taker : Order) (price : ℚ) :
    ∀ (lv : Level) (orders : List (String × Order)) (rem : ℚ) (c : Nat) (x : String),
      x ∈ ((walkQueue taker price orders rem c lv).orders).map Prod.fst →
      x ∈ orders.map Prod.fst := by
  intro lv
  induction lv with
  | nil => intro orders rem c x h; simpa [walkQueue] using h
  | cons m rest ih =>
    intro orders rem c x h
    by_cases h0 : rem ≤ 0
    · rw [walkQueue, if_pos h0] at h; simpa using h
    · rw [walkQueue_cons taker price orders rem c m rest h0] at h
      simp only at h
      by_cases hz : (filledMaker ((lookupOrder orders m).getD default)
          (rmin rem ((lookupOrder orders m).getD default).remaining_qty)).remaining_qty = 0
      · rw [if_pos hz] at h
        simp only at h
        have h2 := ih _ _ _ _ h
        have h3 := eraseOrder_keys _ _ _ h2
        rw [updateOrder_keys] at h3
        exact h3
      · rw [if_neg hz] at h
        simp only at h
        rw [updateOrder_keys] at h
        exact h

theorem walkQueue_pos (taker : Order) (price : ℚ) :
    ∀ (lv : Level) (orders : List (String × Order)) (rem : ℚ) (c : Nat),
      (∀ e ∈ orders, 0 < e.2.remaining_qty) →
      ∀ e ∈ ((walkQueue taker price orders rem c lv).orders), 0 < e.2.remaining_qty := by
  intro lv
  induction lv with
  | nil => intro orders rem c hpos e he; exact hpos e (by simpa [walkQueue] using he)
  | cons m rest ih =>
    intro orders rem c hpos e he
    by_cases h0 : rem ≤ 0
    · rw [walkQueue, if_pos h0] at he; exact hpos e (by simpa using he)
    · rw [walkQueue_cons taker price orders rem c m rest h0] at he
      simp only at he
      by_cases hz : (filledMaker ((lookupOrder orders m).getD default)
          (rmin rem ((lookupOrder orders m).getD default).remaining_qty)).remaining_qty = 0
      · rw [if_pos hz] at he
        simp only at he
        refine ih _ _ _ ?_ e he
        intro e2 he2
        exact hpos e2 (erase_update_mem _ _ _ _ he2)
      · rw [if_neg hz] at he
        simp only at he
        rcases updateOrder_mem _ _ _ _ he with h2 | h2
        · exact hpos e h2
        · subst h2
          exact lt_of_le_of_ne (filledMaker_remaining_nonneg _ _) (Ne.symm hz)

theorem walkLevels_keys (taker : Order) :
    ∀ (levels : List (ℚ × Level)) (orders : List (String × Order)) (rem : ℚ) (c : Nat)
      (x : String),
      x ∈ ((walkLevels taker orders rem c levels).orders).map Prod.fst →
      x ∈ orders.map Prod.fst := by
  intro levels
  induction levels with
  | nil => intro orders rem c x h; simpa [walkLevels] using h
  | cons pl rest ih =>
    obtain ⟨p, lv⟩ := pl
    intro orders rem c x h
    rw [walkLevels] at h
    by_cases h0 : rem ≤ 0
    · rw [if_pos h0] at h; simpa using h
    · rw [if_neg h0] at h
      by_cases hstop : taker.type ≠ OrderType.MARKET ∧ ¬ priceCheck taker p
      · rw [if_pos hstop] at h; simpa using h
      · rw [if_neg hstop] at h
        simp only at h
        by_cases hq : (walkQueue taker p orders rem c lv).queue = []
        · rw [if_pos hq] at h
          simp only at h
          exact walkQueue_keys taker p lv orders rem c x (ih _ _ _ _ h)
        · rw [if_neg hq] at h
          simp only at h
          exact walkQueue_keys taker p lv orders rem c x h

theorem walkLevels_pos (taker : Order) :
    ∀ (levels : List (ℚ × Level)) (orders : List (String × Order)) (rem : ℚ) (c : Nat),
      (∀ e ∈ orders, 0 < e.2.remaining_qty) →
      ∀ e ∈ ((walkLevels taker orders rem c levels).orders), 0 < e.2.remaining_qty := by
  intro levels
  induction levels with
  | nil => intro orders rem c hpos e he; exact hpos e (by simpa [walkLevels] using he)
  | cons pl rest ih =>
    obtain ⟨p, lv⟩ := pl
    intro orders rem c hpos e he
    rw [walkLevels] at he
    by_cases h0 : rem ≤ 0
    · rw [if_pos h0] at he; exact hpos e (by simpa using he)
    · rw [if_neg h0] at he
      by_cases hstop : taker.type ≠ OrderType.MARKET ∧ ¬ priceCheck taker p
      · rw [if_pos hstop] at he; exact hpos e (by simpa using he)
      · rw [if_neg hstop] at he
        simp only at he
        by_cases hq : (walkQueue taker p orders rem c lv).queue = []
        · rw [if_pos hq] at he
          simp only at he
          exact ih _ _ _ (walkQueue_pos taker p lv orders rem c hpos) e he
        · rw [if_neg hq] at he
          simp only at he
          exact walkQueue_pos taker p lv orders rem c hpos e he

theorem matchOrderIntended_keys (s : EngineState) (o : Order) (x : String)
    (h : x ∈ ((matchOrderIntended s o).1.book.orders).map Prod.fst) :
    x ∈ s.book.orders.map Prod.fst := by
  rw [matchOrderIntended] at h
  by_cases hc : o.type = OrderType.FOK ∧ canFillCompletely s o = false
  · rw [if_pos hc] at h; simpa using h
  · rw [if_neg hc] at h
    by_cases hs : o.side = OrderSide.BUY
    · simp only [hs, if_true, eq_self_iff_true] at h
      exact walkLevels_keys o _ _ _ _ x h
    · simp only [hs, if_false] at h
      exact walkLevels_keys o _ _ _ _ x h

theorem matchOrderIntended_pos (s : EngineState) (o : Order)
    (hpos : ∀ e ∈ s.book.orders, 0 < e.2.remaining_qty) :
    ∀ e ∈ ((matchOrderIntended s o).1.book.orders), 0 < e.2.remaining_qty := by
  intro e he
  rw [matchOrderIntended] at he
  by_cases hc : o.type = OrderType.FOK ∧ canFillCompletely s o = false
  · rw [if_pos hc] at he; exact hpos e (by simpa using he)
  · rw [if_neg hc] at he
    by_cases hs : o.side = OrderSide.BUY
    · simp only [hs, if_true, eq_self_iff_true] at he
      exact walkLevels_pos o _ _ _ _ hpos e he
    · simp only [hs, if_false] at he
      exact walkLevels_pos o _ _ _ _ hpos e he

theorem handleRemaining_keys (s2 : EngineState) (o2 : Order) (trades : List Trade) (x : String)
    (h : x ∈ ((handleRemaining s2 o2 trades).1.book.orders).map Prod.fst) :
    x ∈ s2.book.orders.map Prod.fst ∨
      (x = o2.order_id ∧ ∃ o3, (handleRemaining s2 o2 trades).2 = Except.ok o3 ∧
        o3.order_id = o2.order_id ∧
        (o3.status = OrderStatus.OPEN ∨ o3.status = OrderStatus.PARTIAL)) := by
  by_cases hr : o2.remaining_qty > 0
  · rw [handleRemaining, if_pos hr] at h ⊢
    cases hty : o2.type with
    | MARKET =>
      simp only [hty] at h
      by_cases ht : trades = []
      · rw [if_pos ht] at h; exact Or.inl h
      · rw [if_neg ht] at h; exact Or.inl h
    | IOC =>
      simp only [hty] at h
      by_cases ht : trades ≠ []
      · rw [if_pos ht] at h; exact Or.inl h
      · rw [if_neg ht] at h; exact Or.inl h
    | FOK =>
      simp only [hty] at h
      exact Or.inl h
    | LIMIT =>
      simp only [hty] at h ⊢
      cases hadd : s2.book.add_order o2 with
      | error e =>
        simp only [hadd] at h
        exact Or.inl h
      | ok b2 =>
        simp only [hadd] at h ⊢
        rw [updateOrder_keys] at h
        have hb2 : b2.orders = insertOrder s2.book.orders o2.order_id
            { o2 with status := OrderStatus.OPEN } := by
          rw [OrderBook.add_order] at hadd
          by_cases hdup : (lookupOrder s2.book.orders o2.order_id).isSome
          · rw [if_pos hdup] at hadd; cases hadd
          · rw [if_neg hdup] at hadd
            by_cases hside : o2.side = OrderSide.BUY
            · rw [if_pos hside] at hadd
              injection hadd with h2
              rw [← h2]
            · rw [if_neg hside] at hadd
              injection hadd with h2
              rw [← h2]
        rw [hb2] at h
        rcases insertOrder_keys _ _ _ _ h with h2 | h2
        · exact Or.inl h2
        · right
          refine ⟨h2, _, rfl, rfl, ?_⟩
          by_cases ht : trades ≠ [] <;> simp [ht]
  · rw [handleRemaining, if_neg hr] at h
    exact Or.inl h

theorem handleRemaining_pos (s2 : EngineState) (o2 : Order) (trades : List Trade)
    (hpos : ∀ e ∈ s2.book.orders, 0 < e.2.remaining_qty) :
    ∀ e ∈ ((handleRemaining s2 o2 trades).1.book.orders), 0 < e.2.remaining_qty := by
  intro e he
  by_cases hr : o2.remaining_qty > 0
  · rw [handleRemaining, if_pos hr] at he
    cases hty : o2.type with
    | MARKET =>
      simp only [hty] at he
      by_cases ht : trades = []
      · rw [if_pos ht] at he; exact hpos e he
      · rw [if_neg ht] at he; exact hpos e he
    | IOC =>
      simp only [hty] at he
      by_cases ht : trades ≠ []
      · rw [if_pos ht] at he; exact hpos e he
      · rw [if_neg ht] at he; exact hpos e he
    | FOK =>
      simp only [hty] at he
      exact hpos e he
    | LIMIT =>
      simp only [hty] at he
      cases hadd : s2.book.add_order o2 with
      | error e2 =>
        simp only [hadd] at he
        exact hpos e he
      | ok b2 =>
        simp only [hadd] at he
        have hb2 : b2.orders = insertOrder s2.book.orders o2.order_id
            { o2 with status := OrderStatus.OPEN } := by
          rw [OrderBook.add_order] at hadd
          by_cases hdup : (lookupOrder s2.book.orders o2.order_id).isSome
          · rw [if_pos hdup] at hadd; cases hadd
          · rw [if_neg hdup] at hadd
            by_cases hside : o2.side = OrderSide.BUY
            · rw [if_pos hside] at hadd
              injection hadd with h2
              rw [← h2]
            · rw [if_neg hside] at hadd
              injection hadd with h2
              rw [← h2]
        rcases updateOrder_mem _ _ _ _ he with h2 | h2
        · rw [hb2] at h2
          rcases insertOrder_mem _ _ _ _ h2 with h3 | h3
          · exact hpos e h3
          · subst h3; exact hr
        · subst h2; exact hr
  · rw [handleRemaining, if_neg hr] at he
    exact hpos e he

/-- Through the intended submit, the only id that can join the id dict
is the incoming order's own, and only by resting as `OPEN` or
`PARTIAL`. -/
theorem submitIntended_fresh (s : EngineState) (req : OrderRequest) (fid oid : String)
    (hnot : oid ∉ s.book.orders.map Prod.fst)
    (hmem : oid ∈ ((submitIntended s req fid).1.book.orders).map Prod.fst) :
    ∃ r, (submitIntended s req fid).2 = SubmitResult.success r ∧ r.order_id = oid ∧
      (r.status = OrderStatus.OPEN ∨ r.status = OrderStatus.PARTIAL) := by
  cases hco : createOrderFromData req fid with
  | error e =>
    simp only [submitIntended, hco] at hmem
    exact absurd hmem hnot
  | ok o =>
    simp only [submitIntended, hco] at hmem ⊢
    generalize hmi : matchOrderIntended { s with wal := s.wal ++ [walRecordOf o] } o
      = mres at hmem ⊢
    obtain ⟨s2, o2, trades⟩ := mres
    simp only at hmem ⊢
    have hkeys2 : ∀ x, x ∈ s2.book.orders.map Prod.fst → x ∈ s.book.orders.map Prod.fst := by
      intro x hx
      have h3 := matchOrderIntended_keys { s with wal := s.wal ++ [walRecordOf o] } o x
      rw [hmi] at h3
      exact h3 hx
    have hk := handleRemaining_keys s2 o2 trades oid
    generalize hhr : handleRemaining s2 o2 trades = hres at hmem hk ⊢
    obtain ⟨s3, res⟩ := hres
    cases res with
    | error e2 =>
      simp only at hmem
      rcases hk hmem with h2 | h2
      · exact absurd (hkeys2 _ h2) hnot
      · obtain ⟨_, o3, hres, _⟩ := h2
        cases hres
    | ok o3 =>
      simp only at hmem ⊢
      rcases hk hmem with h2 | h2
      · exact absurd (hkeys2 _ h2) hnot
      · obtain ⟨hx, o4, hres, hid, hstat⟩ := h2
        injection hres with hres
        subst hres
        refine ⟨buildResponse o3 trades, rfl, ?_, hstat⟩
        show o3.order_id = oid
        rw [hid]
        exact hx.symm

/-- The intended submit keeps the invariant that every order in the id
dict has a positive remainder: fully filled makers are deleted from the
dict as they are consumed, and only a positive LIMIT remainder rests. -/
theorem submitIntended_pos (s : EngineState) (req : OrderRequest) (fid : String)
    (hpos : ∀ e ∈ s.book.orders, 0 < e.2.remaining_qty) :
    ∀ e ∈ ((submitIntended s req fid).1.book.orders), 0 < e.2.remaining_qty := by
  intro e he
  cases hco : createOrderFromData req fid with
  | error e2 =>
    simp only [submitIntended, hco] at he
    exact hpos e he
  | ok o =>
    simp only [submitIntended, hco] at he
    generalize hmi : matchOrderIntended { s with wal := s.wal ++ [walRecordOf o] } o
      = mres at he
    obtain ⟨s2, o2, trades⟩ := mres
    simp only at he
    have hp2 : ∀ e2 ∈ s2.book.orders, 0 < e2.2.remaining_qty := by
      intro e2 he2
      have h3 := matchOrderIntended_pos { s with wal := s.wal ++ [walRecordOf o] } o hpos
      rw [hmi] at h3
      exact h3 e2 he2
    have hp3 := handleRemaining_pos s2 o2 trades hp2
    generalize hhr : handleRemaining s2 o2 trades = hres at he hp3
    obtain ⟨s3, res⟩ := hres
    cases res with
    | error e2 => exact hp3 e he
    | ok o3 => exact hp3 e (by simpa using he)

/-- The crossable maker quantity opposing an order: levels in
best-price-first order (asks ascending for a BUY, bids from the top for
a SELL), cumulated while the taker's limit crosses the level price. -/
def crossableQty (b : OrderBook) (o : Order) : ℚ :=
  crossQty b.orders (priceCheck o)
    (if o.side = OrderSide.BUY then b.asks else b.bids.reverse)

/-- `_can_fill_completely` succeeds exactly when the demand is at most
the crossable maker quantity (for a FOK order with positive remainder,
over a book whose resting quantities are non-negative). -/
theorem canFillCompletely_eq (s : EngineState) (o : Order) (hty : o.type = OrderType.FOK)
    (hpos : 0 < o.remaining_qty)
    (hnn : ∀ e ∈ s.book.orders, 0 ≤ e.2.remaining_qty) :
    canFillCompletely s o = decide (o.remaining_qty ≤ crossableQty s.book o) := by
  rw [canFillCompletely, if_neg (by simp [hty]), crossableQty]
  exact canFillLoop_eq s.book.orders hnn (priceCheck o) _ o.remaining_qty hpos

/-- The `Order` that `_create_order_from_data` builds from a FOK request
(the id falls back to the generated `freshId`). -/
def fokOrderOf (req : OrderRequest) (fid : String) : Order :=
  { order_id := req.order_id.getD fid, symbol := req.symbol,
    side := if pyLower req.side = "buy" then OrderSide.BUY else OrderSide.SELL,
    type := OrderType.FOK, price := req.price, quantity := req.quantity,
    remaining_qty := req.quantity, filled_qty := 0, status := OrderStatus.PENDING,
    client_id := req.client_id }

theorem createOrder_fok (req : OrderRequest) (fid : String)
    (hside : pyLower req.side = "buy" ∨ pyLower req.side = "sell")
    (hty : pyLower req.order_type = "fok")
    (hq : 0 < req.quantity) (pr : ℚ) (hp : req.price = some pr) :
    createOrderFromData req fid = Except.ok (fokOrderOf req fid) := by
  rcases hside with h | h <;>
    simp [createOrderFromData, Order.initialize, fokOrderOf, h, hty, hp,
      not_le.mpr hq]

/-- C4: submitting a FOK order whose quantity exceeds the cumulative
crossable maker quantity on the opposing side ends with status
`REJECTED`, zero trades, and the order book — price maps, level queues,
resting orders and id dict — exactly as before; the dry run never
mutates the book (the submission's only state effects are the
`ORDER_SUBMIT` WAL append, made before matching, and the broadcast).
This holds for the code exactly as written: the FOK pre-check rejects
before line 183's undefined name is reached. -/
theorem C4_fok_unfillable_rejected (s : EngineState) (req : OrderRequest) (fid : String)
    (hside : pyLower req.side = "buy" ∨ pyLower req.side = "sell")
    (hty : pyLower req.order_type = "fok")
    (hq : 0 < req.quantity) (pr : ℚ) (hp : req.price = some pr)
    (hnn : ∀ e ∈ s.book.orders, 0 ≤ e.2.remaining_qty)
    (hex : crossableQty s.book (fokOrderOf req fid) < req.quantity) :
    (submitFaithful s req fid).1.book = s.book ∧
    (submitFaithful s req fid).1.trade_history = s.trade_history ∧
    (submitFaithful s req fid).2 = SubmitResult.success
      { order_id := req.order_id.getD fid, status := OrderStatus.REJECTED,
        original_quantity := req.quantity, filled_quantity := 0,
        remaining_quantity := req.quantity, price := req.price,
        avg_fill_price := none } := by
  have hco := createOrder_fok req fid hside hty hq pr hp
  have hcf : canFillCompletely { s with wal := s.wal ++ [walRecordOf (fokOrderOf req fid)] }
      (fokOrderOf req fid) = false := by
    rw [canFillCompletely_eq _ _ rfl (by simpa [fokOrderOf] using hq) (by simpa using hnn)]
    simp only [decide_eq_false_iff_not, not_le]
    simpa [fokOrderOf, crossableQty] using hex
  simp only [fokOrderOf] at hcf
  refine ⟨?_, ?_, ?_⟩ <;>
    simp [submitFaithful, hco, matchOrderFaithful, hcf, handleRemaining, Order.reject,
      buildResponse, Order.to_dict, fokOrderOf, hq, qsum]

/-- C4 witness: on the book holding only SELL 1.0 @ 50000, the FOK BUY
2.0 @ 50000 is rejected with the book untouched (spec scenario 4). -/
theorem C4_fok_unfillable_rejected_witness :
    (submitFaithful sAfterSell reqBuyFok2 "B1").1.book = sAfterSell.book ∧
    (submitFaithful sAfterSell reqBuyFok2 "B1").1.trade_history = sAfterSell.trade_history ∧
    (submitFaithful sAfterSell reqBuyFok2 "B1").2 = SubmitResult.success
      { order_id := "B1", status := OrderStatus.REJECTED, original_quantity := 2,
        filled_quantity := 0, remaining_quantity := 2, price := some 50000,
        avg_fill_price := none } :=
  C4_fok_unfillable_rejected sAfterSell reqBuyFok2 "B1" (Or.inl (by decide)) (by decide)
    (by decide) 50000 (by decide) (by decide) (by decide)

/-- C7 (amended): a successful cancel of an order found in the id dict
with status `OPEN` or `PARTIAL` removes it from its price level and
from the id dict, sets its status to `CANCELLED`, invokes the broadcast
hook (when a manager is attached), and returns its dict with
`cancelled_quantity = remaining_qty` — but appends NOTHING to the
write-ahead log (the final state keeps `wal` unchanged; the source
never calls `log_order_cancel`). -/
theorem C7_cancel_success_effects (s : EngineState) (oid : String) (o : Order)
    (hfound : lookupOrder s.book.orders oid = some o)
    (hstat : o.status = OrderStatus.OPEN ∨ o.status = OrderStatus.PARTIAL) :
    cancelOrder s oid =
      ({ s with
          book :=
            if o.side = OrderSide.BUY then
              { s.book with bids := removeFromLevels s.book.bids (o.price.getD 0) oid,
                            orders := eraseOrder s.book.orders oid }
            else
              { s.book with asks := removeFromLevels s.book.asks (o.price.getD 0) oid,
                            orders := eraseOrder s.book.orders oid },
          broadcasts := if s.has_websocket then s.broadcasts + 1 else s.broadcasts },
       CancelResult.success
         { order_id := o.order_id, status := OrderStatus.CANCELLED,
           original_quantity := o.quantity, filled_quantity := o.filled_qty,
           remaining_quantity := o.remaining_qty, price := o.price, avg_fill_price := none }
         o.remaining_qty) ∧
    (cancelOrder s oid).1.wal = s.wal := by
  rcases hstat with h | h <;> by_cases hside : o.side = OrderSide.BUY <;>
    refine ⟨?_, ?_⟩ <;>
    simp [cancelOrder, hfound, h, hside, OrderBook.remove_order, Order.cancel,
      Order.to_dict]

/-- The resting SELL order of `sAfterSell`. -/
def restingS1 : Order :=
  { order_id := "S1", symbol := "BTC-USDT", side := OrderSide.SELL, type := OrderType.LIMIT,
    price := some 50000, quantity := 1, remaining_qty := 1, filled_qty := 0,
    status := OrderStatus.OPEN, client_id := none }

/-- C7 witness: the amended theorem applied to the concrete resting
order of `sAfterSell`. -/
theorem C7_cancel_success_effects_witness :
    (cancelOrder sAfterSell "S1").2 = CancelResult.success respC7 1 ∧
    (cancelOrder sAfterSell "S1").1.wal = sAfterSell.wal := by
  have h := C7_cancel_success_effects sAfterSell "S1" restingS1 (by decide)
    (Or.inl (by decide))
  exact ⟨by rw [h.1]; decide, h.2⟩

/-- C10: `get_order` and `cancel_order` consult only the per-book id
dict, which holds exactly the currently resting orders.  Conjuncts:
(1) an id absent from the dict gets `None` from `get_order` and
not-found from `cancel_order`, whatever any order's status is;
(2) through a submit (intended walk), the only id that can join the
dict is the taker's own, and only when the response says it rests as
`OPEN` or `PARTIAL` — a rejected order, or a taker consumed on arrival
(`FILLED`, `PARTIAL_FILL_CANCELLED`), never appears in the dict;
(3) the submit preserves the invariant that every order in the dict has
a positive remainder — fully filled makers are deleted from the dict by
the walk;
(4) after a successful cancel the order's id is gone from the dict, so
a later lookup returns absent. -/
theorem C10_lookup_consults_only_index :
    (∀ (s : EngineState) (oid : String), oid ∉ s.book.orders.map Prod.fst →
      getOrder s oid = none ∧ cancelOrder s oid = (s, CancelResult.notFound)) ∧
    (∀ (s : EngineState) (req : OrderRequest) (fid oid : String),
      oid ∉ s.book.orders.map Prod.fst →
      oid ∈ ((submitIntended s req fid).1.book.orders).map Prod.fst →
      ∃ r, (submitIntended s req fid).2 = SubmitResult.success r ∧ r.order_id = oid ∧
        (r.status = OrderStatus.OPEN ∨ r.status = OrderStatus.PARTIAL)) ∧
    (∀ (s : EngineState) (req : OrderRequest) (fid : String),
      (∀ e ∈ s.book.orders, 0 < e.2.remaining_qty) →
      ∀ e ∈ ((submitIntended s req fid).1.book.orders), 0 < e.2.remaining_qty) ∧
    (∀ (s : EngineState) (oid : String) (r : OrderResponse) (q : ℚ),
      (s.book.orders.map Prod.fst).Nodup →
      (cancelOrder s oid).2 = CancelResult.success r q →
      getOrder (cancelOrder s oid).1 oid = none) := by
  refine ⟨?_, submitIntended_fresh, submitIntended_pos, ?_⟩
  · intro s oid h
    have hl := (lookupOrder_eq_none s.book.orders oid).mpr h
    exact ⟨by simp [getOrder, hl], by simp [cancelOrder, hl]⟩
  · intro s oid r q hnd hsucc
    cases hl : lookupOrder s.book.orders oid with
    | none => simp [cancelOrder, hl] at hsucc
    | some o =>
      by_cases hst : o.status = OrderStatus.OPEN ∨ o.status = OrderStatus.PARTIAL
      · have hterm : ¬(o.status = OrderStatus.FILLED ∨ o.status = OrderStatus.CANCELLED ∨
            o.status = OrderStatus.REJECTED) := by
          rcases hst with h | h <;> simp [h]
        by_cases hside : o.side = OrderSide.BUY <;>
          simp [cancelOrder, hl, hst, OrderBook.remove_order, Order.cancel, hterm, hside,
            getOrder, lookup_eraseOrder_self s.book.orders oid hnd]
      · simp [cancelOrder, hl, hst] at hsucc

/-- C10 witness: the four conjuncts at concrete inputs — an unknown id
on the empty engine, the resting of `reqSellLimit1` under fresh id
`"S1"`, the positive-remainder invariant across the partially filled
C2 submission, and the cancel of `"S1"`. -/
theorem C10_lookup_consults_only_index_witness :
    (getOrder emptyEngine "X" = none ∧
      cancelOrder emptyEngine "X" = (emptyEngine, CancelResult.notFound)) ∧
    (∃ r, (submitIntended emptyEngine reqSellLimit1 "S1").2 = SubmitResult.success r ∧
      r.order_id = "S1" ∧
      (r.status = OrderStatus.OPEN ∨ r.status = OrderStatus.PARTIAL)) ∧
    0 < restingC2.remaining_qty ∧
    getOrder (cancelOrder sAfterSell "S1").1 "S1" = none := by
  obtain ⟨h1, h2, h3, h4⟩ := C10_lookup_consults_only_index
  refine ⟨h1 emptyEngine "X" (by decide), ?_, ?_, ?_⟩
  · exact h2 emptyEngine reqSellLimit1 "S1" "S1" (by decide) (by decide)
  · exact h3 sAfterSell reqBuyLimit2 "B1" (by decide) ("B1", restingC2) (by decide)
  · exact h4 sAfterSell "S1" respC7 1 (by decide) (by decide)

/-- A registered conditional order for the C9 witness: BUY STOP_LOSS,
trigger 100. -/
def advC9 : AdvancedOrder :=
  { order_id := "ADV-1", symbol := "BTC-USDT", side := "buy", quantity := 1,
    order_type := AdvancedOrderType.STOP_LOSS, trigger_price := 100, limit_price := none,
    client_id := none, activated := false }

/-- C9: the trigger table of `check_trigger` matches the claim exactly
(BUY stop orders fire at `last ≤ trigger`, BUY take-profit at
`last ≥ trigger`, SELL reversed); `check_advanced_orders` removes
exactly the triggered entries from the registry (keeping the untriggered
ones, in order) and promotes each triggered entry through
`to_limit_order` — order type "limit" with the limit price exactly for
`STOP_LIMIT`, otherwise "market". -/
theorem C9_trigger_table (o : AdvancedOrder) (p : ℚ) (reg : List AdvancedOrder)
    (h : o.activated = false) :
    ((o.side = "buy" ∧ (o.order_type = AdvancedOrderType.STOP_LOSS ∨
        o.order_type = AdvancedOrderType.STOP_LIMIT)) →
      (o.check_trigger p = true ↔ p ≤ o.trigger_price)) ∧
    ((o.side = "buy" ∧ o.order_type = AdvancedOrderType.TAKE_PROFIT) →
      (o.check_trigger p = true ↔ o.trigger_price ≤ p)) ∧
    ((o.side = "sell" ∧ (o.order_type = AdvancedOrderType.STOP_LOSS ∨
        o.order_type = AdvancedOrderType.STOP_LIMIT)) →
      (o.check_trigger p = true ↔ o.trigger_price ≤ p)) ∧
    ((o.side = "sell" ∧ o.order_type = AdvancedOrderType.TAKE_PROFIT) →
      (o.check_trigger p = true ↔ p ≤ o.trigger_price)) ∧
    (checkAdvancedOrders reg p =
      ((reg.filter (fun a => a.check_trigger p)).map (fun a => a.order_id),
       reg.filter (fun a => !(a.check_trigger p)),
       (reg.filter (fun a => a.check_trigger p)).map AdvancedOrder.to_limit_order)) ∧
    (o.order_type = AdvancedOrderType.STOP_LIMIT →
      o.to_limit_order.order_type = "limit" ∧
      (∀ lp, o.limit_price = some lp → lp ≠ 0 → o.to_limit_order.price = some lp)) ∧
    (o.order_type ≠ AdvancedOrderType.STOP_LIMIT → o.to_limit_order.order_type = "market") := by
  refine ⟨?_, ?_, ?_, ?_, ?_, ?_, ?_⟩
  · rintro ⟨hs, hk⟩
    rcases hk with hk | hk <;> simp [AdvancedOrder.check_trigger, h, hs, hk]
  · rintro ⟨hs, hk⟩
    simp [AdvancedOrder.check_trigger, h, hs, hk]
  · rintro ⟨hs, hk⟩
    rcases hk with hk | hk <;> simp [AdvancedOrder.check_trigger, h, hs, hk]
  · rintro ⟨hs, hk⟩
    simp [AdvancedOrder.check_trigger, h, hs, hk]
  · induction reg with
    | nil => rfl
    | cons a t ih =>
      by_cases ha : a.check_trigger p = true <;>
        simp [checkAdvancedOrders, ha, ih, List.filter_cons]
  · intro hk
    refine ⟨by simp [AdvancedOrder.to_limit_order, hk], ?_⟩
    intro lp hlp hlp0
    simp [AdvancedOrder.to_limit_order, hlp, hlp0]
  · intro hk
    simp [AdvancedOrder.to_limit_order, hk]

/-- C9 witness: the table applied to the concrete BUY STOP_LOSS with
trigger 100 at last price 90 (fires) and to a one-entry registry. -/
theorem C9_trigger_table_witness :
    advC9.check_trigger 90 = true ∧
    checkAdvancedOrders [advC9] 90 =
      (["ADV-1"], [], [advC9.to_limit_order]) := by
  have h1 := ((C9_trigger_table advC9 90 [advC9] rfl).1 ⟨rfl, Or.inl rfl⟩).mpr (by decide)
  have h5 := (C9_trigger_table advC9 90 [advC9] rfl).2.2.2.2.1
  refine ⟨h1, ?_⟩
  rw [h5]
  decide

end RegNMS
